import Mathlib

/-!
Verification development for the CAS (Consolidated Account Statement) PDF
parsing engine of this repository.

The extraction engine lives in `src/pdf_parser.py` (class `CASParser`).  Its
input, after the external PDF/decryption layer, is one concatenated text
buffer; every function modelled here is a pure function of that text, so the
engine embeds directly as Lean functions over `String` / `List String`.

Numeric values are modelled as `ℚ` (the parser only ever builds decimal
literals, so rationals are an exact model of the values it computes).
Python exceptions that escape a function are modelled with `Except String`;
exceptions that the source catches locally are absorbed exactly where the
source catches them.

Note on the record classes: `src/pdf_parser.py` imports `MutualFundScheme`,
`Transaction`, `AdditionalInfo` and `Gain` from the project's `models`
module, and writes to `CASData.schemes` / `CASData.transactions` /
`PortfolioSummary.mutual_funds.count`, but the `src/models.py` present in
the repository is a stale variant that defines none of those names.  The
record classes the parser actually uses are therefore modelled from the
spec (§3 "DATA MODEL"), with identity fields as optional strings and all
numeric fields defaulting to zero, as the spec states.
-/

/-- Decidable equality on `Except`, needed to `decide` concrete runs. -/
instance {ε α : Type} [DecidableEq ε] [DecidableEq α] :
    DecidableEq (Except ε α) := fun a b =>
  match a, b with
  | .ok x, .ok y =>
    if h : x = y then isTrue (by rw [h])
    else isFalse (by intro hc; cases hc; exact h rfl)
  | .error x, .error y =>
    if h : x = y then isTrue (by rw [h])
    else isFalse (by intro hc; cases hc; exact h rfl)
  | .ok _, .error _ => isFalse (by intro hc; cases hc)
  | .error _, .ok _ => isFalse (by intro hc; cases hc)

namespace CAS

/-! ### Python string primitives -/

/-- Python whitespace (`str.strip`, `str.split`, regex `\s`). -/
def isPySpace (c : Char) : Bool :=
  c = ' ' || c = '\t' || c = '\n' || c = '\r' || c = '\x0b' || c = '\x0c'

/-- Regex `\w` (ASCII fragment): letters, digits, underscore. -/
def isWordChar (c : Char) : Bool :=
  c.isAlphanum || c = '_'

/-- Character class `[\d,]` used by the balance-line number regex. -/
def isNumComma (c : Char) : Bool :=
  c.isDigit || c = ','

/-- Python `str.strip()`: drop leading and trailing whitespace. -/
def pyStrip (s : String) : String :=
  String.mk (((s.data.dropWhile isPySpace).reverse.dropWhile isPySpace).reverse)

/-- `text.split('\n')`: split on every newline, keeping empty pieces. -/
def splitNlAux : List Char → List Char → List String
  | [], acc => [String.mk acc.reverse]
  | c :: cs, acc =>
    if c = '\n' then String.mk acc.reverse :: splitNlAux cs []
    else splitNlAux cs (c :: acc)

/-- The line list the parser scans (`self.text.split('\n')`). -/
def pyLines (s : String) : List String := splitNlAux s.data []

/-- `str.split()` with no argument: split on whitespace runs, no empties.
The fuel argument bounds the recursion; `pySplit` supplies enough. -/
def pySplitAux : Nat → List Char → List String
  | 0, _ => []
  | _, [] => []
  | f + 1, c :: cs =>
    if isPySpace c then pySplitAux f cs
    else
      String.mk ((c :: cs).takeWhile (fun x => !isPySpace x)) ::
        pySplitAux f ((c :: cs).dropWhile (fun x => !isPySpace x))

/-- Python `line.split()`. -/
def pySplit (s : String) : List String := pySplitAux (s.data.length + 1) s.data

/-- `' '.join parts` (rebuilding the transaction description). -/
def joinSpaces : List String → String
  | [] => ""
  | [s] => s
  | s :: rest => s ++ " " ++ joinSpaces rest

/-- Python substring containment `pat in s`. -/
def anySuffix (f : List Char → Bool) : List Char → Bool
  | [] => f []
  | c :: cs => f (c :: cs) || anySuffix f cs

/-- Python `pat in s` (contiguous substring test). -/
def containsSub (s pat : String) : Bool :=
  anySuffix (fun suf => pat.data.isPrefixOf suf) s.data

/-- `re.search`: try the matcher at each position left to right and keep the
first success, mirroring leftmost-match semantics. -/
def firstSuffix {α : Type} (f : List Char → Option α) : List Char → Option α
  | [] => f []
  | c :: cs =>
    match f (c :: cs) with
    | some a => some a
    | none => firstSuffix f cs

/-- Drop commas: `s.replace(',', '')` as applied before `float(...)`. -/
def stripCommas (s : String) : String :=
  String.mk (s.data.filter (fun c => !(c = ',')))

/-! ### Python `float` on decimal strings

`float()` as the parser exercises it: optional sign, integer digits,
optional fractional part.  Returns `none` where Python raises
`ValueError` (empty string, stray characters, lone dot). -/

/-- Value of a list of decimal digit characters. -/
def decDigitsVal (ds : List Char) : Nat :=
  ds.foldl (fun n c => 10 * n + (c.toNat - 48)) 0

/-- Powers of ten, for the fractional part of a decimal literal. -/
def pow10 : Nat → Nat
  | 0 => 1
  | n + 1 => 10 * pow10 n

/-! Batteries marks the `Rat` field operations `@[irreducible]`, so the
arithmetic the parser performs is expressed through `mkRat` on numerators
and denominators — kernel-computable and provably equal to the field
operations (`ratAdd_eq` and friends below). -/

/-- Rational addition via `mkRat` (equals `a + b`, see `ratAdd_eq`). -/
def ratAdd (a b : ℚ) : ℚ := mkRat (a.num * b.den + b.num * a.den) (a.den * b.den)

/-- Rational subtraction via `mkRat` (equals `a - b`, see `ratSub_eq`). -/
def ratSub (a b : ℚ) : ℚ := ratAdd a (-b)

/-- Rational multiplication via `mkRat` (equals `a * b`, see `ratMul_eq`). -/
def ratMul (a b : ℚ) : ℚ := mkRat (a.num * b.num) (a.den * b.den)

/-- Rational division via `mkRat` (equals `a / b`, see `ratDiv_eq`). -/
def ratDiv (a b : ℚ) : ℚ :=
  if b.num < 0 then mkRat (-(a.num * (b.den : Int))) (a.den * b.num.natAbs)
  else mkRat (a.num * (b.den : Int)) (a.den * b.num.natAbs)

/-- The value of a decimal literal with integer part `ip` and fractional
part `fp` (equals `ip + fp / 10 ^ length fp`). -/
def decValue (ip fp : List Char) : ℚ :=
  mkRat ((decDigitsVal ip * pow10 fp.length + decDigitsVal fp : Nat) : Int)
    (pow10 fp.length)

/-- Unsigned decimal literal: `digits`, `digits.`, `digits.digits`, `.digits`;
the integer digit prefix, then optionally a dot and fractional digits, must
exhaust the string, and at least one digit must be present. -/
def pyFloatCore (cs : List Char) : Option ℚ :=
  match cs.dropWhile Char.isDigit with
  | [] =>
    if (cs.takeWhile Char.isDigit).isEmpty then none
    else some (decValue (cs.takeWhile Char.isDigit) [])
  | '.' :: r2 =>
    if (r2.dropWhile Char.isDigit).isEmpty then
      if (cs.takeWhile Char.isDigit).isEmpty && (r2.takeWhile Char.isDigit).isEmpty then
        none
      else some (decValue (cs.takeWhile Char.isDigit) (r2.takeWhile Char.isDigit))
    else none
  | _ => none

/-- Python `float(s)` on the decimal forms the parser feeds it: an optional
leading sign, then an unsigned decimal literal. -/
def pyFloat (s : String) : Option ℚ :=
  if s.data.head? = some '-' then (pyFloatCore s.data.tail).map (fun q => -q)
  else if s.data.head? = some '+' then pyFloatCore s.data.tail
  else pyFloatCore s.data

/-! ### `datetime.strptime(tok, '%d-%b-%Y')` -/

/-- A calendar date as `strptime` validates it. -/
structure PyDate where
  year : Nat
  month : Nat
  day : Nat
deriving DecidableEq

def isLeapYear (y : Nat) : Bool :=
  (y % 4 = 0 && !(y % 100 = 0)) || y % 400 = 0

def daysInMonth (y m : Nat) : Nat :=
  if m = 2 then (if isLeapYear y then 29 else 28)
  else if m = 4 || m = 6 || m = 9 || m = 11 then 30
  else 31

/-- Month abbreviation table of `%b` (matched case-insensitively). -/
def monthAbbrevNum (s : String) : Option Nat :=
  if s = "jan" then some 1 else if s = "feb" then some 2
  else if s = "mar" then some 3 else if s = "apr" then some 4
  else if s = "may" then some 5 else if s = "jun" then some 6
  else if s = "jul" then some 7 else if s = "aug" then some 8
  else if s = "sep" then some 9 else if s = "oct" then some 10
  else if s = "nov" then some 11 else if s = "dec" then some 12
  else none

/-- `datetime.strptime(tok, '%d-%b-%Y')` on the token shapes that can reach
it (the transaction anchor guarantees a `\d{2}-[A-Za-z]{3}-\d{4}` prefix).
`none` models the uncaught `ValueError`: unknown month abbreviation, day out
of range for the month, year zero, or trailing unconverted characters. -/
def pyStrptimeDMY (s : String) : Option PyDate :=
  match s.data with
  | [d1, d2, '-', m1, m2, m3, '-', y1, y2, y3, y4] =>
    if d1.isDigit && d2.isDigit && y1.isDigit && y2.isDigit && y3.isDigit && y4.isDigit then
      match monthAbbrevNum (String.mk [m1.toLower, m2.toLower, m3.toLower]) with
      | none => none
      | some m =>
        let day := (d1.toNat - 48) * 10 + (d2.toNat - 48)
        let year := decDigitsVal [y1, y2, y3, y4]
        if 1 ≤ day && day ≤ daysInMonth year m && 1 ≤ year then
          some ⟨year, m, day⟩
        else none
    else none
  | _ => none

/-! ### The individual regex matchers of `_extract_mutual_funds` /
`_extract_investor_info`, each as a position matcher plus a search. -/

/-- Character class of the folio regex: word chars, whitespace, slash, dash. -/
def folioClassChar (c : Char) : Bool :=
  isWordChar c || isPySpace c || c = '/' || c = '-'

/-- The folio search `re.search` with pattern `Folio No:` then `\s*` then a
capture of one or more word/whitespace/slash/dash characters, at one position.
If the class characters are exhausted by `\s*` the engine backtracks and
the group captures a single whitespace character. -/
def folioAt (cs : List Char) : Option String :=
  if "Folio No:".data.isPrefixOf cs then
    let rest := cs.drop 9
    let ws := rest.takeWhile isPySpace
    let body := rest.dropWhile isPySpace
    let grp := body.takeWhile folioClassChar
    if !grp.isEmpty then some (String.mk grp)
    else if !ws.isEmpty then some (String.mk [ws.getLastD ' '])
    else none
  else none

def folioSearch (line : String) : Option String := firstSuffix folioAt line.data

/-- `re.search(r'ARN-([\d]+)', line)` at one position. -/
def arnAt (cs : List Char) : Option String :=
  if "ARN-".data.isPrefixOf cs then
    let ds := (cs.drop 4).takeWhile Char.isDigit
    if ds.isEmpty then none else some (String.mk ds)
  else none

def arnSearch (line : String) : Option String := firstSuffix arnAt line.data

/-- `re.search(r'ISIN:\s*(INF\w+)', line)` at one position. -/
def isinAt (cs : List Char) : Option String :=
  if "ISIN:".data.isPrefixOf cs then
    let body := (cs.drop 5).dropWhile isPySpace
    if "INF".data.isPrefixOf body then
      let ws := (body.drop 3).takeWhile isWordChar
      if ws.isEmpty then none else some ("INF" ++ String.mk ws)
    else none
  else none

def isinSearch (line : String) : Option String := firstSuffix isinAt line.data

/-- `re.search(r'PAN:\s*([A-Z]{5}\d{4}[A-Z])', text)` at one position. -/
def panAt (cs : List Char) : Option String :=
  if "PAN:".data.isPrefixOf cs then
    let body := (cs.drop 4).dropWhile isPySpace
    let g := body.take 10
    if g.length = 10
        && (g.take 5).all Char.isUpper
        && ((g.drop 5).take 4).all Char.isDigit
        && (g.drop 9).all Char.isUpper then
      some (String.mk g)
    else none
  else none

/-- The PAN search of `_extract_investor_info` (src line 80). -/
def panSearch (text : String) : Option String := firstSuffix panAt text.data

/-- `re.search(r'Cost:\s*Rs\.\s*([\d,]+\.?\d*)', balance_line)` at one
position; the group is digits/commas, then an optional dot and digits. -/
def costAt (cs : List Char) : Option String :=
  if "Cost:".data.isPrefixOf cs then
    let b1 := (cs.drop 5).dropWhile isPySpace
    if "Rs.".data.isPrefixOf b1 then
      let b2 := (b1.drop 3).dropWhile isPySpace
      let a := b2.takeWhile isNumComma
      if a.isEmpty then none
      else
        match b2.dropWhile isNumComma with
        | '.' :: r2 => some (String.mk (a ++ '.' :: r2.takeWhile Char.isDigit))
        | _ => some (String.mk a)
    else none
  else none

def costSearch (line : String) : Option String := firstSuffix costAt line.data

/-- `re.search(r'@\s*Rs\.\s*([\d.]+)', desc)` at one position. -/
def divRateAt (cs : List Char) : Option String :=
  match cs with
  | '@' :: r0 =>
    let b1 := r0.dropWhile isPySpace
    if "Rs.".data.isPrefixOf b1 then
      let b2 := (b1.drop 3).dropWhile isPySpace
      let g := b2.takeWhile (fun c => c.isDigit || c = '.')
      if g.isEmpty then none else some (String.mk g)
    else none
  | _ => none

def divRateSearch (desc : String) : Option String := firstSuffix divRateAt desc.data

/-- `re.match(r'\d{2}-[A-Za-z]{3}-\d{4}', line)`: anchored prefix test. -/
def matchesDateAnchor (s : String) : Bool :=
  match s.data with
  | d1 :: d2 :: '-' :: a :: b :: c :: '-' :: y1 :: y2 :: y3 :: y4 :: _ =>
    d1.isDigit && d2.isDigit && a.isAlpha && b.isAlpha && c.isAlpha &&
      y1.isDigit && y2.isDigit && y3.isDigit && y4.isDigit
  | _ => false

/-- `re.findall(r'[\d,]+\.?\d*', balance_line)`: all non-overlapping
matches, left to right, each greedy.  Fuel bounds the recursion; the
caller passes the string length, which always suffices. -/
def findallNumsAux : Nat → List Char → List String
  | 0, _ => []
  | _, [] => []
  | f + 1, c :: cs =>
    if isNumComma c then
      let a := (c :: cs).takeWhile isNumComma
      match (c :: cs).dropWhile isNumComma with
      | '.' :: r2 =>
        String.mk (a ++ '.' :: r2.takeWhile Char.isDigit) ::
          findallNumsAux f (r2.dropWhile Char.isDigit)
      | r1 => String.mk a :: findallNumsAux f r1
    else findallNumsAux f cs

/-- The `numbers` list extracted from a balance line (src line 192). -/
def findallNums (s : String) : List String := findallNumsAux s.data.length s.data

/-! ### The record graph

Modelled from the spec: the record classes `Gain`, `AdditionalInfo`,
`MutualFundScheme` and `Transaction` that `src/pdf_parser.py` imports from
the project's `models` module are absent from the `src/models.py` in the
repository (a stale variant); their fields and zero defaults follow spec §3
and the parser's construction sites. -/

/-- Modelled from the spec: `gain` record, `{absolute, percentage}`, both
zero until a cost is recovered. -/
structure Gain where
  absolute : ℚ := 0
  percentage : ℚ := 0
deriving DecidableEq

/-- Modelled from the spec: per-scheme advisor/registrar context.
`rta_code` is carried by the scan but never assigned by the source. -/
structure AdditionalInfo where
  advisor : Option String := none
  rta : Option String := none
  rta_code : Option String := none
deriving DecidableEq

/-- Modelled from the spec: a mutual-fund Scheme record; identity fields
from the scan context, numeric fields defaulting to zero. -/
structure MutualFundScheme where
  folio_number : Option String := none
  amc : Option String := none
  name : String := ""
  isin : String := ""
  units : ℚ := 0
  nav : ℚ := 0
  value : ℚ := 0
  cost : ℚ := 0
  gain : Gain := {}
  additional_info : AdditionalInfo := {}
deriving DecidableEq

/-- Modelled from the spec: a Transaction record as the parser constructs
it (src lines 235-258). -/
structure Transaction where
  folio_number : Option String := none
  amc : Option String := none
  scheme_name : String := ""
  date : PyDate
  description : String := ""
  amount : ℚ := 0
  units : ℚ := 0
  nav : ℚ := 0
  type : String := ""
  dividend_rate : Option ℚ := none
deriving DecidableEq

/-- Investor identity fields the claims exercise.  `pan` defaults to the
empty string (so in `src/models.py`).  The email / mobile / address /
cas-id recovery of src lines 89-126 writes only fields no claim mentions
and is orthogonal to the name and PAN logic, so it is not modelled. -/
structure InvestorInfo where
  name : String := ""
  pan : String := ""
deriving DecidableEq

/-- Modelled from the spec: the mutual-fund breakdown of the summary,
written attribute-style by `_calculate_portfolio_summary`. -/
structure MutualFundsSummary where
  count : ℚ := 0
  total_value : ℚ := 0
deriving DecidableEq

/-- Modelled from the spec: the portfolio summary record. -/
structure PortfolioSummary where
  total_value : ℚ := 0
  mutual_funds : MutualFundsSummary := {}
deriving DecidableEq

/-- The aggregate parse result (`CASData` as the parser populates it). -/
structure CASData where
  investor_info : InvestorInfo := {}
  schemes : List MutualFundScheme := []
  transactions : List Transaction := []
  diagnostics : List String := []
  portfolio_summary : PortfolioSummary := {}
deriving DecidableEq

/-- Error taxonomy of §7.  `_extract_text` raises `ValueError`s whose
messages distinguish credential, format and empty-document failures;
anything escaping the extraction scans is an `internalError`. -/
inductive CASError where
  | credentialError
  | unrecognizedFormat
  | emptyDocument
  | internalError (msg : String)
deriving DecidableEq

/-! ### DocumentClassifier (`_extract_text`, src lines 36-46)

After page extraction the source first tests the three fixed CAMS markers
and only then tests for empty text, in that order. -/

def casMarkers : List String :=
  ["CAMS - Consolidated Account Statement",
   "Computer Age Management Services Limited",
   "CAMS Financial Information Services"]

/-- The classification performed on the extracted text: marker check first
(raising the not-a-CAMS-CAS `ValueError`), then the empty-text check. -/
def classifyExtractedText (text : String) : Except CASError String :=
  if casMarkers.any (fun m => containsSub text m) then
    if pyStrip text = "" then .error .emptyDocument else .ok text
  else .error .unrecognizedFormat

/-! ### InvestorInfoExtractor (`_extract_investor_info`, src lines 76-126) -/

/-- `\s+` then literal `PAN:`: the tail of the multiline name pattern. -/
def wsThenPan (suffix : List Char) : Bool :=
  !(suffix.takeWhile isPySpace).isEmpty &&
    "PAN:".data.isPrefixOf (suffix.dropWhile isPySpace)

/-- Greedy group of the name pattern: the longest nonempty run of
non-newline characters (length at most `k`) followed by `\s+PAN:`. -/
def nameGroupFrom (cs : List Char) : Nat → Option String
  | 0 => none
  | k + 1 =>
    if wsThenPan (cs.drop (k + 1)) then some (String.mk (cs.take (k + 1)))
    else nameGroupFrom cs k

/-- The name pattern anchored at one line start. -/
def nameAtLineStart (cs : List Char) : Option String :=
  nameGroupFrom cs (cs.takeWhile (fun c => !(c = '\n'))).length

/-- Multiline search: try each line start left to right. -/
def nameSearchAux : Nat → List Char → Option String
  | 0, _ => none
  | f + 1, cs =>
    match nameAtLineStart cs with
    | some g => some g
    | none =>
      match cs.dropWhile (fun c => !(c = '\n')) with
      | [] => none
      | _ :: tail => nameSearchAux f tail

/-- The multiline name search with pattern: line start, a nonempty
non-newline capture, `\s+`, literal `PAN:` (src line 84). -/
def nameSearch (text : String) : Option String :=
  nameSearchAux (text.data.length + 1) text.data

/-- `_extract_investor_info` restricted to the fields the claims exercise.
The PAN search (src lines 79-81) only prints its match: the `pan` field is
never assigned, so it keeps its empty default. -/
def extractInvestorInfo (text : String) : InvestorInfo :=
  { name :=
      match nameSearch text with
      | some g => pyStrip g
      | none => ""
    pan := "" }

/-! ### HoldingsExtractor + TransactionExtractor
(`_extract_mutual_funds`, src lines 128-265) -/

/-- The carry-forward scan context: current folio, AMC, advisor, RTA.
(`current_rta_code` is never written by the source and stays `none`;
`current_scheme` is never read.) -/
structure MFCtx where
  folio : Option String := none
  amc : Option String := none
  advisor : Option String := none
  rta : Option String := none
deriving DecidableEq

/-- What the scan accumulates: schemes, transactions, and the diagnostics
printed for transaction lines that fail numeric conversion. -/
structure MFResult where
  schemes : List MutualFundScheme := []
  txns : List Transaction := []
  diags : List String := []
deriving DecidableEq

/-- `lines[i]` (always in range at the source's call sites). -/
def lineGet (lines : List String) (i : Nat) : String := lines.getD i ""

/-- A bounded `for j in range(start, start + cnt)` returning the first
line the matcher accepts. -/
def findFrom {α : Type} (f : String → Option α) (lines : List String) :
    Nat → Nat → Option α
  | _, 0 => none
  | start, c + 1 =>
    match f (lineGet lines start) with
    | some a => some a
    | none => findFrom f lines (start + 1) c

/-- AMC lookahead after a folio line: first line in `range(i+1, min(i+5,n))`
containing `'Mutual Fund'`, stripped (src lines 144-147). -/
def amcLookahead (lines : List String) (i : Nat) : Option String :=
  findFrom (fun l => if containsSub l "Mutual Fund" then some (pyStrip l) else none)
    lines (i + 1) (min (i + 5) lines.length - (i + 1))

/-- Balance lookahead after an ISIN line: first line in
`range(i+1, min(i+10,n))` containing `'Closing Unit Balance:'` and
carrying at least three numeric tokens — a balance line with fewer
numbers does not `break` the source loop (src lines 185-211). -/
def balanceSearch (lines : List String) (i : Nat) : Option String :=
  findFrom
    (fun l =>
      if containsSub l "Closing Unit Balance:" then
        if 3 ≤ (findallNums l).length then some l else none
      else none)
    lines (i + 1) (min (i + 10) lines.length - (i + 1))

/-- `float(...)` where the source has no surrounding `try`: a conversion
failure is an uncaught `ValueError` that aborts the extraction. -/
def floatOrRaise (s : String) : Except String ℚ :=
  match pyFloat s with
  | some q => .ok q
  | none => .error ("could not convert string to float: " ++ s)

/-- Fill a freshly opened scheme from its balance line: the first three
numeric tokens are units, nav, value in that order; a `Cost: Rs.` figure
sets `cost` and, when positive, the derived `gain` (src lines 192-203). -/
def mkSchemeFromBalance (base : MutualFundScheme) (bl : String) :
    Except String MutualFundScheme :=
  let nums := findallNums bl
  match floatOrRaise (stripCommas (nums.getD 0 "")),
        floatOrRaise (stripCommas (nums.getD 1 "")),
        floatOrRaise (stripCommas (nums.getD 2 "")) with
  | .ok u, .ok n, .ok v =>
    (match costSearch bl with
     | none => .ok { base with units := u, nav := n, value := v }
     | some cs =>
       match floatOrRaise (stripCommas cs) with
       | .ok c =>
         let g : Gain :=
           { absolute := ratSub v c, percentage := ratMul (ratDiv (ratSub v c) c) 100 }
         if 0 < c then
           .ok { base with
                  units := u, nav := n, value := v, cost := c, gain := g }
         else .ok { base with units := u, nav := n, value := v, cost := c }
       | .error e => .error e)
  | .error e, _, _ => .error e
  | _, .error e, _ => .error e
  | _, _, .error e => .error e

/-- The last-three-token numeric triple `(amount, units, nav)` of a
transaction line (src lines 231-233), `none` when any conversion fails. -/
def trailingTriple (parts : List String) : Option (ℚ × ℚ × ℚ) :=
  match pyFloat (stripCommas (parts.getD (parts.length - 3) "")),
        pyFloat (stripCommas (parts.getD (parts.length - 2) "")),
        pyFloat (stripCommas (parts.getD (parts.length - 1) "")) with
  | some a, some u, some n => some (a, u, n)
  | _, _, _ => none

/-- Keyword classification of the description, in source order; for
dividends a malformed `@ Rs.` rate makes `float` raise inside the same
`try`, dropping the line (src lines 246-260). -/
def classifyTxn (desc : String) : Option (String × Option ℚ) :=
  if containsSub desc "Purchase" then
    some (if containsSub desc "SIP" then "PURCHASE_SIP" else "PURCHASE", none)
  else if containsSub desc "Redemption" then some ("REDEMPTION", none)
  else if containsSub desc "Switch Out" then some ("SWITCH_OUT", none)
  else if containsSub desc "Switch In" then some ("SWITCH_IN", none)
  else if containsSub desc "Dividend" then
    let ty := if containsSub desc "Payout" then "DIVIDEND_PAYOUT"
              else "DIVIDEND_REINVESTMENT"
    match divRateSearch desc with
    | none => some (ty, none)
    | some rs =>
      match pyFloat rs with
      | none => none
      | some r => some (ty, some r)
  else some ("MISC", none)

/-- The body of the source `try` block (src lines 230-262): numeric triple,
then classification; `none` models the caught `ValueError`/`IndexError`. -/
def txnOfParts (folio amc : Option String) (sname : String) (dt : PyDate)
    (desc : String) (parts : List String) : Option Transaction :=
  match trailingTriple parts with
  | none => none
  | some (a, u, n) =>
    match classifyTxn desc with
    | none => none
    | some tyr =>
      some { folio_number := folio, amc := amc, scheme_name := sname,
             date := dt, description := desc, amount := a, units := u,
             nav := n, type := tyr.1, dividend_rate := tyr.2 }

/-- The transaction scan of one scheme block (src lines 213-265): from the
line after the ISIN anchor to the next line containing `'ISIN:'` or the end
of the document.  `strptime` runs outside the `try`, so an invalid calendar
date in an anchored line is an uncaught exception. -/
def txnScan (folio amc : Option String) (sname : String) :
    List String → List Transaction → List String →
    Except String (List Transaction × List String)
  | [], txns, diags => .ok (txns, diags)
  | l :: rest, txns, diags =>
    let line := pyStrip l
    if containsSub line "ISIN:" then .ok (txns, diags)
    else if matchesDateAnchor line then
      let parts := pySplit line
      if 5 ≤ parts.length then
        match pyStrptimeDMY (parts.headD "") with
        | none =>
          .error ("time data " ++ parts.headD "" ++
            " does not match format %d-%b-%Y")
        | some dt =>
          let desc := joinSpaces ((parts.drop 1).take (parts.length - 4))
          match txnOfParts folio amc sname dt desc parts with
          | some t => txnScan folio amc sname rest (txns ++ [t]) diags
          | none =>
            txnScan folio amc sname rest txns
              (diags ++ ["Failed to parse transaction: " ++ line])
      else txnScan folio amc sname rest txns diags
    else txnScan folio amc sname rest txns diags

/-- Advisor and RTA context updates applied to every non-folio line before
the ISIN test (src lines 151-160). -/
def ctxAfterLine (ctx : MFCtx) (line : String) : MFCtx :=
  let c1 :=
    match arnSearch line with
    | some ds => { ctx with advisor := some ("ARN-" ++ ds) }
    | none => ctx
  if containsSub line "CAMS" then { c1 with rta := some "CAMS" }
  else if containsSub line "KFINTECH" then { c1 with rta := some "KFINTECH" }
  else c1

/-- Scheme name: the stripped previous line, or `""` on the first line
(src line 166). -/
def schemeNameAt (lines : List String) (i : Nat) : String :=
  if 0 < i then pyStrip (lineGet lines (i - 1)) else ""

/-- The scheme opened at an ISIN anchor, before balance recovery
(src lines 169-179). -/
def baseScheme (ctx : MFCtx) (sname isin : String) : MutualFundScheme :=
  { folio_number := ctx.folio, amc := ctx.amc, name := sname, isin := isin,
    additional_info :=
      { advisor := ctx.advisor, rta := ctx.rta, rta_code := none } }

/-- One iteration of the outer line loop (src lines 139-265): a folio match
updates folio/AMC context and `continue`s; otherwise advisor/RTA context is
updated and an ISIN anchor opens a scheme block — balance lookahead first
(appending the scheme only when a balance line with three numeric tokens is
found), then the transaction scan of the block. -/
def mfProcessLine (lines : List String) (i : Nat) (ctx : MFCtx)
    (res : MFResult) : Except String (MFCtx × MFResult) :=
  let line := lineGet lines i
  match folioSearch line with
  | some f =>
    let amc2 :=
      match amcLookahead lines i with
      | some a => some a
      | none => ctx.amc
    .ok ({ ctx with folio := some (pyStrip f), amc := amc2 }, res)
  | none =>
    let ctx2 := ctxAfterLine ctx line
    match isinSearch line with
    | none => .ok (ctx2, res)
    | some isin =>
      let sname := schemeNameAt lines i
      match balanceSearch lines i with
      | none =>
        match txnScan ctx2.folio ctx2.amc sname (lines.drop (i + 1))
            res.txns res.diags with
        | .error e => .error e
        | .ok td =>
          .ok (ctx2, { schemes := res.schemes, txns := td.1, diags := td.2 })
      | some bl =>
        match mkSchemeFromBalance (baseScheme ctx2 sname isin) bl with
        | .error e => .error e
        | .ok s =>
          match txnScan ctx2.folio ctx2.amc sname (lines.drop (i + 1))
              res.txns res.diags with
          | .error e => .error e
          | .ok td =>
            .ok (ctx2,
              { schemes := res.schemes ++ [s], txns := td.1, diags := td.2 })

/-- The outer `for i, line in enumerate(lines)` loop, by remaining count. -/
def mfLoopAux (lines : List String) :
    Nat → Nat → MFCtx → MFResult → Except String MFResult
  | _, 0, _, res => .ok res
  | i, c + 1, ctx, res =>
    match mfProcessLine lines i ctx res with
    | .error e => .error e
    | .ok cr => mfLoopAux lines (i + 1) c cr.1 cr.2

/-- `_extract_mutual_funds` over the split line list. -/
def extractMutualFunds (lines : List String) : Except String MFResult :=
  mfLoopAux lines 0 lines.length {} {}

/-! ### PortfolioAggregator (`_calculate_portfolio_summary`,
src lines 267-282) -/

/-- Python `sum(...)`: a left fold of addition starting from zero. -/
def pySum (l : List ℚ) : ℚ := l.foldl ratAdd 0

/-- Recompute the summary from the final scheme collection. -/
def calculatePortfolioSummary (schemes : List MutualFundScheme) :
    PortfolioSummary :=
  let mfValue := pySum (schemes.map MutualFundScheme.value)
  { total_value := mfValue,
    mutual_funds := { count := (schemes.length : ℚ), total_value := mfValue } }

/-! ### The pipeline (`CASParser.__init__` + `parse`) -/

/-- Classification of the extracted text, then investor info, mutual funds
and the recomputed summary, in source order. -/
def parseCAS (text : String) : Except CASError CASData :=
  match classifyExtractedText text with
  | .error e => .error e
  | .ok t =>
    match extractMutualFunds (pyLines t) with
    | .error m => .error (.internalError m)
    | .ok r =>
      .ok { investor_info := extractInvestorInfo t,
            schemes := r.schemes,
            transactions := r.txns,
            diagnostics := r.diags,
            portfolio_summary := calculatePortfolioSummary r.schemes }

/-! ### Predicates used by the verification -/

/-- Characters a balance-line or cost numeric token can contain. -/
def numTokChar (c : Char) : Bool := isNumComma c || c = '.'

/-- All four stored numeric fields of a scheme are non-negative. -/
def schemeNonneg (s : MutualFundScheme) : Bool :=
  decide (0 ≤ s.units) && decide (0 ≤ s.nav) &&
    decide (0 ≤ s.value) && decide (0 ≤ s.cost)

/-! ### Concrete documents exercised by the claim theorems.
Each is a small extracted-text buffer containing a CAMS marker line (so
classification succeeds) followed by the lines the claim is about. -/

/-- A scheme block whose ISIN anchor is never followed by a balance line. -/
def c1text : String :=
  "CAMS - Consolidated Account Statement\nScheme One\nISIN: INF9Z8Y7X6W5\nsome text\nmore text\n"

/-- A scheme block with no balance line but one valid transaction line. -/
def c2text : String :=
  "CAMS - Consolidated Account Statement\nScheme Two\nISIN: INF9Z8Y7X6W5\n01-Apr-2024 Purchase 1,000.00 10.500 95.20\n"

/-- The spec's investor-info scenario: a name line followed by a PAN line. -/
def c3text : String :=
  "CAMS - Consolidated Account Statement\nJOHN DOE\nPAN: ABCDE1234F\n"

/-- A transaction line whose date token matches the anchor but is not a
calendar date, and whose trailing tokens are non-numeric; a valid
transaction line follows it. -/
def c5text : String :=
  "CAMS - Consolidated Account Statement\nScheme Three\nISIN: INF9Z8Y7X6W5\n01-Zzz-2024 Purchase abc def ghi\n02-Apr-2024 Purchase 1.00 2.00 3.00\n"

/-- The spec's end-to-end SIP transaction scenario inside a scheme block. -/
def c7text : String :=
  "CAMS - Consolidated Account Statement\nMy Scheme\nISIN: INF1A2B3C4D5\nClosing Unit Balance: 120.500 45.6700 5502.83\n01-Apr-2024 Purchase - SIP 1,000.00 10.500 95.20\n"

/-- A scheme whose cost exceeds its value, plus a transaction line with a
negative amount token. -/
def c8text : String :=
  "CAMS - Consolidated Account Statement\nScheme Neg\nISIN: INF5T6Y7U8I9\nClosing Unit Balance: 10.000 10.00 100.00 Cost: Rs. 200.00\n01-Apr-2024 Redemption -5.00 1.00 2.00\n"

/-- A transaction line with a valid anchor, five tokens, numeric trailing
tokens, but a month token that is not a month abbreviation. -/
def c9text : String :=
  "CAMS - Consolidated Account Statement\nScheme Five\nISIN: INF9Z8Y7X6W5\n01-Zzz-2024 Purchase 1.00 2.00 3.00\n"

/-- A date-anchored line with fewer than five tokens that also contains
the block delimiter `ISIN:`, followed by a valid transaction line. -/
def c10text : String :=
  "CAMS - Consolidated Account Statement\nScheme Six\nISIN: INF1Q2W3E4R5\n01-Apr-2024 x ISIN:\n02-Apr-2024 Purchase 1.00 2.00 3.00\n"

/-- Witness input: a marker-only document that parses to the empty result. -/
def c6wText : String := "CAMS - Consolidated Account Statement"

/-- The parse result of `c6wText`: everything at its default. -/
def c6wData : CASData := {}

/-- Witness input: one scheme with a balance line and no transactions. -/
def c8wText : String :=
  "CAMS - Consolidated Account Statement\nScheme W\nISIN: INF1A1A1A1A1\nClosing Unit Balance: 1.000 2.00 2.00\n"

/-- The parse result of `c8wText` (the marker line contains `CAMS`, so the
carried registrar context is `CAMS` when the scheme is opened). -/
def c8wData : CASData :=
  { investor_info := { name := "", pan := "" },
    schemes := [{ folio_number := none, amc := none, name := "Scheme W",
                  isin := "INF1A1A1A1A1", units := 1, nav := 2, value := 2,
                  cost := 0, gain := {},
                  additional_info := { advisor := none, rta := some "CAMS",
                                       rta_code := none } }],
    transactions := [], diagnostics := [],
    portfolio_summary := { total_value := 2,
                           mutual_funds := { count := 1, total_value := 2 } } }

/-- The scheme recovered from `c7text`'s balance line when the scan context
is empty (used by the step-level witnesses). -/
def c2wScheme : MutualFundScheme :=
  { folio_number := none, amc := none, name := "My Scheme",
    isin := "INF1A2B3C4D5", units := mkRat 241 2, nav := mkRat 4567 100,
    value := mkRat 550283 100, cost := 0, gain := {},
    additional_info := { advisor := none, rta := none, rta_code := none } }

/-! ### The `mkRat`-coded arithmetic agrees with the field operations -/

theorem pow10_pos (n : Nat) : 0 < pow10 n := by
  induction n with
  | zero => simp [pow10]
  | succ n ih => simp only [pow10]; omega

theorem ratAdd_eq (a b : ℚ) : ratAdd a b = a + b := by
  have ha : ((a.den : ℚ)) ≠ 0 := Nat.cast_ne_zero.mpr a.den_ne_zero
  have hb : ((b.den : ℚ)) ≠ 0 := Nat.cast_ne_zero.mpr b.den_ne_zero
  have h1 : (a.num : ℚ) = a * (a.den : ℚ) := (div_eq_iff ha).mp (Rat.num_div_den a)
  have h2 : (b.num : ℚ) = b * (b.den : ℚ) := (div_eq_iff hb).mp (Rat.num_div_den b)
  rw [ratAdd, Rat.mkRat_eq_divInt, Rat.divInt_eq_div]
  push_cast
  rw [h1, h2, div_eq_iff (mul_ne_zero ha hb)]
  ring

theorem ratSub_eq (a b : ℚ) : ratSub a b = a - b := by
  rw [ratSub, ratAdd_eq]; ring

theorem ratMul_eq (a b : ℚ) : ratMul a b = a * b := by
  have ha : ((a.den : ℚ)) ≠ 0 := Nat.cast_ne_zero.mpr a.den_ne_zero
  have hb : ((b.den : ℚ)) ≠ 0 := Nat.cast_ne_zero.mpr b.den_ne_zero
  have h1 : (a.num : ℚ) = a * (a.den : ℚ) := (div_eq_iff ha).mp (Rat.num_div_den a)
  have h2 : (b.num : ℚ) = b * (b.den : ℚ) := (div_eq_iff hb).mp (Rat.num_div_den b)
  rw [ratMul, Rat.mkRat_eq_divInt, Rat.divInt_eq_div]
  push_cast
  rw [h1, h2, div_eq_iff (mul_ne_zero ha hb)]
  ring

theorem ratDiv_eq (a b : ℚ) : ratDiv a b = a / b := by
  have ha : ((a.den : ℚ)) ≠ 0 := Nat.cast_ne_zero.mpr a.den_ne_zero
  have h1 : (a.num : ℚ) = a * (a.den : ℚ) := (div_eq_iff ha).mp (Rat.num_div_den a)
  have hbd : ((b.den : ℚ)) ≠ 0 := Nat.cast_ne_zero.mpr b.den_ne_zero
  have h2 : (b.num : ℚ) = b * (b.den : ℚ) := (div_eq_iff hbd).mp (Rat.num_div_den b)
  rcases lt_trichotomy b.num 0 with hneg | hzero | hpos
  · have hnegq : ((b.num : ℚ)) < 0 := by exact_mod_cast hneg
    have hbn : ((b.num : ℚ)) ≠ 0 := hnegq.ne
    have hb0 : b ≠ 0 := by
      intro hb
      rw [hb] at hneg
      simp at hneg
    rw [ratDiv, if_pos hneg, Rat.mkRat_eq_divInt, Rat.divInt_eq_div]
    push_cast [Int.cast_natAbs, abs_of_neg hnegq]
    rw [div_eq_div_iff (mul_ne_zero ha (neg_ne_zero.mpr hbn)) hb0, h1, h2]
    ring
  · have hb : b = 0 := Rat.num_eq_zero.mp hzero
    rw [ratDiv, if_neg (by omega), hzero, Rat.mkRat_eq_divInt, Rat.divInt_eq_div]
    simp [hb]
  · have hposq : (0 : ℚ) < ((b.num : ℚ)) := by exact_mod_cast hpos
    have hbn : ((b.num : ℚ)) ≠ 0 := hposq.ne'
    have hb0 : b ≠ 0 := by
      intro hb
      rw [hb] at hpos
      simp at hpos
    rw [ratDiv, if_neg (by omega), Rat.mkRat_eq_divInt, Rat.divInt_eq_div]
    push_cast [Int.cast_natAbs, abs_of_pos hposq]
    rw [div_eq_div_iff (mul_ne_zero ha hbn) hb0, h1, h2]
    ring

theorem decValue_eq (ip fp : List Char) :
    decValue ip fp =
      (decDigitsVal ip : ℚ) + (decDigitsVal fp : ℚ) / (pow10 fp.length : ℚ) := by
  have hp : ((pow10 fp.length : ℚ)) ≠ 0 :=
    Nat.cast_ne_zero.mpr (pow10_pos fp.length).ne'
  rw [decValue, Rat.mkRat_eq_divInt, Rat.divInt_eq_div]
  push_cast
  field_simp

theorem decValue_nonneg (ip fp : List Char) : 0 ≤ decValue ip fp := by
  rw [decValue_eq]
  have h1 : (0 : ℚ) ≤ (decDigitsVal ip : ℚ) := Nat.cast_nonneg _
  have h2 : (0 : ℚ) ≤ (decDigitsVal fp : ℚ) := Nat.cast_nonneg _
  have h3 : (0 : ℚ) ≤ (pow10 fp.length : ℚ) := Nat.cast_nonneg _
  exact add_nonneg h1 (div_nonneg h2 h3)

theorem pySum_eq_sum (l : List ℚ) : pySum l = l.sum := by
  have key : ∀ (m : List ℚ) (a : ℚ), m.foldl ratAdd a = a + m.sum := by
    intro m
    induction m with
    | nil => intro a; simp
    | cons x xs ih => intro a; rw [List.foldl_cons, ih, ratAdd_eq, List.sum_cons]; ring
  rw [pySum, key, zero_add]

/-! ### Non-negativity of recovered balance figures -/

theorem pyFloatCore_nonneg {cs : List Char} {q : ℚ}
    (h : pyFloatCore cs = some q) : 0 ≤ q := by
  unfold pyFloatCore at h
  split at h
  · split at h
    · exact absurd h (by simp)
    · injection h with h
      rw [← h]
      exact decValue_nonneg _ _
  · split at h
    · split at h
      · exact absurd h (by simp)
      · injection h with h
        rw [← h]
        exact decValue_nonneg _ _
    · exact absurd h (by simp)
  · exact absurd h (by simp)

theorem pyFloat_nonneg {s : String} {q : ℚ} (h : pyFloat s = some q)
    (hh : ¬ s.data.head? = some '-') : 0 ≤ q := by
  unfold pyFloat at h
  rw [if_neg hh] at h
  split at h
  · exact pyFloatCore_nonneg h
  · exact pyFloatCore_nonneg h

theorem mem_takeWhile_pred {α : Type} {p : α → Bool} :
    ∀ {l : List α} {a : α}, a ∈ l.takeWhile p → p a = true := by
  intro l
  induction l with
  | nil => intro a h; simp [List.takeWhile] at h
  | cons x xs ih =>
    intro a h
    rw [List.takeWhile_cons] at h
    split at h
    · rcases List.mem_cons.mp h with h | h
      · rw [h]; assumption
      · exact ih h
    · simp at h

theorem firstSuffix_some {α : Type} {f : List Char → Option α} :
    ∀ {cs : List Char} {a : α}, firstSuffix f cs = some a →
      ∃ cs2, f cs2 = some a := by
  intro cs
  induction cs with
  | nil => intro a h; exact ⟨[], h⟩
  | cons c rest ih =>
    intro a h
    unfold firstSuffix at h
    split at h
    · exact ⟨c :: rest, by rw [‹f (c :: rest) = some _›]; injection h with h; rw [h]⟩
    · exact ih h

theorem strMk_data (l : List Char) : (String.mk l).data = l := rfl

theorem findallNumsAux_chars :
    ∀ (f : Nat) (cs : List Char) (t : String), t ∈ findallNumsAux f cs →
      ∀ c ∈ t.data, numTokChar c = true := by
  intro f
  induction f with
  | zero => intro cs t ht; simp [findallNumsAux] at ht
  | succ f ih =>
    intro cs t ht c hc
    match cs with
    | [] => simp [findallNumsAux] at ht
    | x :: rest =>
      rw [findallNumsAux] at ht
      split at ht
      · split at ht
        · rcases List.mem_cons.mp ht with ht | ht
          · rw [ht] at hc
            rw [strMk_data] at hc
            rcases List.mem_append.mp hc with hc | hc
            · have := mem_takeWhile_pred hc
              unfold numTokChar
              rw [this]
              rfl
            · rcases List.mem_cons.mp hc with hc | hc
              · rw [hc]; rfl
              · have := mem_takeWhile_pred hc
                unfold numTokChar isNumComma
                rw [this]
                rfl
          · exact ih _ t ht c hc
        · rcases List.mem_cons.mp ht with ht | ht
          · rw [ht] at hc
            rw [strMk_data] at hc
            have := mem_takeWhile_pred hc
            unfold numTokChar
            rw [this]
            rfl
          · exact ih _ t ht c hc
      · exact ih _ t ht c hc

theorem costAt_chars {cs : List Char} {t : String} (h : costAt cs = some t) :
    ∀ c ∈ t.data, numTokChar c = true := by
  intro c hc
  unfold costAt at h
  dsimp only at h
  split at h
  · split at h
    · split at h
      · exact absurd h (by simp)
      · split at h
        · injection h with h
          rw [← h, strMk_data] at hc
          rcases List.mem_append.mp hc with hc | hc
          · have := mem_takeWhile_pred hc
            unfold numTokChar
            rw [this]
            rfl
          · rcases List.mem_cons.mp hc with hc | hc
            · rw [hc]; rfl
            · have := mem_takeWhile_pred hc
              unfold numTokChar isNumComma
              rw [this]
              rfl
        · injection h with h
          rw [← h, strMk_data] at hc
          have := mem_takeWhile_pred hc
          unfold numTokChar
          rw [this]
          rfl
    · exact absurd h (by simp)
  · exact absurd h (by simp)

theorem stripCommas_head_not_neg {s : String}
    (hchars : ∀ c ∈ s.data, numTokChar c = true) :
    ¬ (stripCommas s).data.head? = some '-' := by
  intro hh
  have hmem : '-' ∈ (stripCommas s).data := by
    cases hl : (stripCommas s).data with
    | nil => rw [hl] at hh; simp at hh
    | cons x xs =>
      rw [hl] at hh
      have hx : x = '-' := by
        simp [List.head?] at hh
        exact hh
      rw [hx]
      exact List.mem_cons_self _ _
  have hmem2 : '-' ∈ s.data := by
    have : (stripCommas s).data = s.data.filter (fun c => !(c = ',')) := rfl
    rw [this] at hmem
    exact (List.mem_filter.mp hmem).1
  have := hchars '-' hmem2
  simp [numTokChar, isNumComma] at this

theorem floatOrRaise_stripCommas_nonneg {s : String} {q : ℚ}
    (h : floatOrRaise (stripCommas s) = .ok q)
    (hchars : ∀ c ∈ s.data, numTokChar c = true) : 0 ≤ q := by
  unfold floatOrRaise at h
  split at h
  · injection h with h
    rw [← h]
    exact pyFloat_nonneg (by assumption) (stripCommas_head_not_neg hchars)
  · exact absurd h (by simp)

theorem getD_mem_or_default (l : List String) (k : Nat) :
    l.getD k "" ∈ l ∨ l.getD k "" = "" := by
  induction l generalizing k with
  | nil => right; cases k <;> rfl
  | cons x xs ih =>
    cases k with
    | zero => left; exact List.mem_cons_self _ _
    | succ k =>
      rcases ih k with h | h
      · left
        have : (x :: xs).getD (k + 1) "" = xs.getD k "" := rfl
        rw [this]
        exact List.mem_cons_of_mem _ h
      · right
        have : (x :: xs).getD (k + 1) "" = xs.getD k "" := rfl
        rw [this, h]

theorem floatOrRaise_empty : floatOrRaise (stripCommas "") = .error
    ("could not convert string to float: " ++ stripCommas "") := by decide

theorem balance_token_nonneg {bl : String} {k : Nat} {q : ℚ}
    (hq : floatOrRaise (stripCommas ((findallNums bl).getD k "")) = .ok q) :
    0 ≤ q := by
  rcases getD_mem_or_default (findallNums bl) k with hm | he
  · exact floatOrRaise_stripCommas_nonneg hq (findallNumsAux_chars _ _ _ hm)
  · rw [he, floatOrRaise_empty] at hq
    exact absurd hq (by simp)

theorem mkSchemeFromBalance_nonneg {base : MutualFundScheme} {bl : String}
    {s : MutualFundScheme} (hcost0 : base.cost = 0)
    (h : mkSchemeFromBalance base bl = .ok s) :
    0 ≤ s.units ∧ 0 ≤ s.nav ∧ 0 ≤ s.value ∧ 0 ≤ s.cost := by
  unfold mkSchemeFromBalance at h
  dsimp only at h
  split at h
  · rename_i u n v hu hn hv
    split at h
    · injection h with h
      rw [← h]
      exact ⟨balance_token_nonneg hu, balance_token_nonneg hn,
        balance_token_nonneg hv, by simpa using hcost0.ge⟩
    · rename_i cs2 hcs2
      split at h
      · rename_i c hcval
        have hcnn : 0 ≤ c := by
          rcases firstSuffix_some hcs2 with ⟨cs3, hat⟩
          exact floatOrRaise_stripCommas_nonneg hcval (costAt_chars hat)
        split at h
        · injection h with h
          rw [← h]
          exact ⟨balance_token_nonneg hu, balance_token_nonneg hn,
            balance_token_nonneg hv, hcnn⟩
        · injection h with h
          rw [← h]
          exact ⟨balance_token_nonneg hu, balance_token_nonneg hn,
            balance_token_nonneg hv, hcnn⟩
      · exact absurd h (by simp)
  · exact absurd h (by simp)
  · exact absurd h (by simp)
  · exact absurd h (by simp)

theorem mfProcessLine_schemes_nonneg {lines : List String} {i : Nat}
    {ctx : MFCtx} {res : MFResult} {p : MFCtx × MFResult}
    (hres : res.schemes.all schemeNonneg = true)
    (h : mfProcessLine lines i ctx res = .ok p) :
    p.2.schemes.all schemeNonneg = true := by
  unfold mfProcessLine at h
  dsimp only at h
  split at h
  · injection h with h
    rw [← h]
    exact hres
  · split at h
    · injection h with h
      rw [← h]
      exact hres
    · split at h
      · split at h
        · exact absurd h (by simp)
        · injection h with h
          rw [← h]
          exact hres
      · split at h
        · exact absurd h (by simp)
        · rename_i s2 hs2
          split at h
          · exact absurd h (by simp)
          · injection h with h
            rw [← h]
            have hnn := mkSchemeFromBalance_nonneg (by rfl) hs2
            simp only [List.all_append, Bool.and_eq_true]
            constructor
            · exact hres
            · simp only [List.all_cons, List.all_nil, Bool.and_true,
                schemeNonneg, Bool.and_eq_true, decide_eq_true_eq]
              exact ⟨⟨⟨hnn.1, hnn.2.1⟩, hnn.2.2.1⟩, hnn.2.2.2⟩

theorem mfLoopAux_schemes_nonneg :
    ∀ (cnt i : Nat) (lines : List String) (ctx : MFCtx) (res res2 : MFResult),
      res.schemes.all schemeNonneg = true →
      mfLoopAux lines i cnt ctx res = .ok res2 →
      res2.schemes.all schemeNonneg = true := by
  intro cnt
  induction cnt with
  | zero =>
    intro i lines ctx res res2 hres h
    unfold mfLoopAux at h
    injection h with h
    rw [← h]
    exact hres
  | succ c ih =>
    intro i lines ctx res res2 hres h
    unfold mfLoopAux at h
    split at h
    · exact absurd h (by simp)
    · rename_i cr hcr
      exact ih _ _ _ _ _ (mfProcessLine_schemes_nonneg hres hcr) h

theorem extractMutualFunds_schemes_nonneg {lines : List String} {r : MFResult}
    (h : extractMutualFunds lines = .ok r) :
    r.schemes.all schemeNonneg = true := by
  unfold extractMutualFunds at h
  exact mfLoopAux_schemes_nonneg _ _ _ _ _ _ (by rfl) h

/-! ### The bounded lookahead windows -/

theorem findFrom_eq_none {α : Type} (f : String → Option α) (lines : List String) :
    ∀ (cnt start : Nat),
      (∀ k < cnt, f (lineGet lines (start + k)) = none) →
      findFrom f lines start cnt = none := by
  intro cnt
  induction cnt with
  | zero => intro start h; rfl
  | succ c ih =>
    intro start h
    have h0 := h 0 (Nat.succ_pos c)
    rw [Nat.add_zero] at h0
    unfold findFrom
    rw [h0]
    exact ih (start + 1)
      (fun k hk => by
        have hx := h (k + 1) (by omega)
        rw [show start + (k + 1) = start + 1 + k from by omega] at hx
        exact hx)

theorem balanceSearch_eq_none {lines : List String} {i : Nat}
    (h : ∀ j < min (i + 10) lines.length, i + 1 ≤ j →
        containsSub (lineGet lines j) "Closing Unit Balance:" = false) :
    balanceSearch lines i = none := by
  unfold balanceSearch
  apply findFrom_eq_none
  intro k hk
  have hc := h (i + 1 + k) (by omega) (by omega)
  simp [hc]

/-- The advisor / registrar updates leave the folio context untouched. -/
theorem ctxAfterLine_folio (ctx : MFCtx) (l : String) :
    (ctxAfterLine ctx l).folio = ctx.folio := by
  unfold ctxAfterLine
  dsimp only
  cases arnSearch l <;> dsimp only <;> split <;> try rfl
  all_goals split <;> rfl

/-- The advisor / registrar updates leave the AMC context untouched. -/
theorem ctxAfterLine_amc (ctx : MFCtx) (l : String) :
    (ctxAfterLine ctx l).amc = ctx.amc := by
  unfold ctxAfterLine
  dsimp only
  cases arnSearch l <;> dsimp only <;> split <;> try rfl
  all_goals split <;> rfl

/-! ### Claim C1 -/

/-- C1 counterexample: in `c1text` the ISIN anchor at line 2 opens a scheme
block, no line of the lookahead window contains `Closing Unit Balance:`, yet
the parse records NO scheme at all — the claim says the scheme is still
recorded with zero numeric fields. -/
theorem c1_counterexample :
    isinSearch (lineGet (pyLines c1text) 2) = some "INF9Z8Y7X6W5" ∧
    balanceSearch (pyLines c1text) 2 = none ∧
    (parseCAS c1text).map CASData.schemes = Except.ok [] := by
  refine ⟨by decide, by decide, by decide⟩

/-- C1 amended: for every scheme block whose ISIN anchor line is not
followed within the ten-line lookahead window by a `Closing Unit Balance:`
line, the parse records NO scheme for the block — the scheme collection is
left unchanged and only the block's transaction scan runs. -/
theorem c1_amended_no_scheme_without_balance (lines : List String) (i : Nat)
    (ctx : MFCtx) (res : MFResult) (isin : String)
    (hfol : folioSearch (lineGet lines i) = none)
    (hisin : isinSearch (lineGet lines i) = some isin)
    (hnb : ∀ j < min (i + 10) lines.length, i + 1 ≤ j →
        containsSub (lineGet lines j) "Closing Unit Balance:" = false) :
    mfProcessLine lines i ctx res =
      (txnScan (ctxAfterLine ctx (lineGet lines i)).folio
          (ctxAfterLine ctx (lineGet lines i)).amc
          (schemeNameAt lines i) (lines.drop (i + 1)) res.txns res.diags).map
        (fun td => (ctxAfterLine ctx (lineGet lines i),
          { schemes := res.schemes, txns := td.1, diags := td.2 })) := by
  unfold mfProcessLine
  dsimp only
  rw [hfol]
  dsimp only
  rw [hisin]
  dsimp only
  rw [balanceSearch_eq_none hnb]
  dsimp only
  cases htd : txnScan (ctxAfterLine ctx (lineGet lines i)).folio
      (ctxAfterLine ctx (lineGet lines i)).amc
      (schemeNameAt lines i) (lines.drop (i + 1)) res.txns res.diags <;>
    simp [Except.map]

/-- C1 witness: the amended theorem applied to `c1text` at its ISIN line. -/
theorem c1_amended_witness :
    mfProcessLine (pyLines c1text) 2 {} {} =
      (txnScan (ctxAfterLine ({} : MFCtx) (lineGet (pyLines c1text) 2)).folio
          (ctxAfterLine ({} : MFCtx) (lineGet (pyLines c1text) 2)).amc
          (schemeNameAt (pyLines c1text) 2) ((pyLines c1text).drop 3)
          ({} : MFResult).txns ({} : MFResult).diags).map
        (fun td => (ctxAfterLine ({} : MFCtx) (lineGet (pyLines c1text) 2),
          { schemes := ({} : MFResult).schemes, txns := td.1, diags := td.2 })) :=
  c1_amended_no_scheme_without_balance (pyLines c1text) 2 {} {} "INF9Z8Y7X6W5"
    (by decide) (by decide) (by decide)

/-! ### Claim C2 -/

/-- C2 counterexample: parsing `c2text` appends one Transaction although its
owning scheme is never present in the scheme collection (the block has no
balance line, so the scheme is never recorded) — refuting the claim that the
owning Scheme always exists when a Transaction is appended. -/
theorem c2_counterexample :
    (parseCAS c2text).map (fun d => (d.schemes, d.transactions.length)) =
      Except.ok ([], 1) := by decide

/-- C2 amended: whenever the balance lookahead of an ISIN block succeeds and
its figures convert, the Scheme is appended to the scheme collection before
the block's transaction scan runs, so each of the block's Transactions is
appended with its Scheme already recorded; when the balance line is missing
the block's Transactions are appended although the Scheme never is. -/
theorem c2_amended_scheme_before_transactions (lines : List String) (i : Nat)
    (ctx : MFCtx) (res : MFResult) (isin bl : String) (s : MutualFundScheme)
    (hfol : folioSearch (lineGet lines i) = none)
    (hisin : isinSearch (lineGet lines i) = some isin)
    (hbal : balanceSearch lines i = some bl)
    (hmk : mkSchemeFromBalance
        (baseScheme (ctxAfterLine ctx (lineGet lines i)) (schemeNameAt lines i) isin)
        bl = .ok s) :
    mfProcessLine lines i ctx res =
      (txnScan (ctxAfterLine ctx (lineGet lines i)).folio
          (ctxAfterLine ctx (lineGet lines i)).amc
          (schemeNameAt lines i) (lines.drop (i + 1)) res.txns res.diags).map
        (fun td => (ctxAfterLine ctx (lineGet lines i),
          { schemes := res.schemes ++ [s], txns := td.1, diags := td.2 })) := by
  unfold mfProcessLine
  dsimp only
  rw [hfol]
  dsimp only
  rw [hisin]
  dsimp only
  rw [hbal]
  dsimp only
  rw [hmk]
  dsimp only
  cases htd : txnScan (ctxAfterLine ctx (lineGet lines i)).folio
      (ctxAfterLine ctx (lineGet lines i)).amc
      (schemeNameAt lines i) (lines.drop (i + 1)) res.txns res.diags <;>
    simp [Except.map]

/-- C2 witness: the amended theorem applied to `c7text` at its ISIN line,
whose balance line yields `c2wScheme`. -/
theorem c2_amended_witness :
    mfProcessLine (pyLines c7text) 2 {} {} =
      (txnScan (ctxAfterLine ({} : MFCtx) (lineGet (pyLines c7text) 2)).folio
          (ctxAfterLine ({} : MFCtx) (lineGet (pyLines c7text) 2)).amc
          (schemeNameAt (pyLines c7text) 2) ((pyLines c7text).drop 3)
          ({} : MFResult).txns ({} : MFResult).diags).map
        (fun td => (ctxAfterLine ({} : MFCtx) (lineGet (pyLines c7text) 2),
          { schemes := ({} : MFResult).schemes ++ [c2wScheme],
            txns := td.1, diags := td.2 })) :=
  c2_amended_scheme_before_transactions (pyLines c7text) 2 {} {}
    "INF1A2B3C4D5" "Closing Unit Balance: 120.500 45.6700 5502.83" c2wScheme
    (by decide) (by decide) (by decide) (by decide)

/-! ### Claim C3 -/

/-- C3: on a text with line `JOHN DOE` immediately before `PAN: ABCDE1234F`
the investor name resolves to `"JOHN DOE"`, and the PAN regex does match
`"ABCDE1234F"` — but the parse leaves the `pan` field at its empty default,
because `_extract_investor_info` only prints the PAN match and never
assigns it (src lines 79-81).  This contradicts the claim that the
InvestorInfo PAN field is set to `"ABCDE1234F"`. -/
theorem c3_pan_never_assigned :
    panSearch c3text = some "ABCDE1234F" ∧
    (parseCAS c3text).map (fun d => (d.investor_info.name, d.investor_info.pan)) =
      Except.ok ("JOHN DOE", "") := by
  refine ⟨by decide, by decide⟩

/-! ### Claim C4 -/

/-- C4: on an empty extraction the classifier raises the not-a-CAMS-CAS
(UnrecognizedFormat) error, not EmptyDocument: the marker check (src line
37) runs before the empty-text check (src line 44), so the EmptyDocument
branch is unreachable — empty text contains no marker.  This contradicts
the claim that an empty extraction yields the EmptyDocument condition, and
its "exactly when the text is non-empty" characterisation of
UnrecognizedFormat. -/
theorem c4_empty_text_misclassified :
    classifyExtractedText "" = Except.error CASError.unrecognizedFormat := by
  decide

/-! ### Claim C5 -/

/-- C5 counterexample: the line `01-Zzz-2024 Purchase abc def ghi` in
`c5text` matches the date anchor and its three trailing tokens fail numeric
conversion, yet the parse raises (uncaught `strptime` failure, outside the
`try`) instead of dropping the line: the whole extraction aborts and the
valid following transaction line is lost. -/
theorem c5_counterexample :
    parseCAS c5text = Except.error (CASError.internalError
      "time data 01-Zzz-2024 does not match format %d-%b-%Y") := by
  decide

/-- C5 amended: a line matching the date anchor, splitting into at least
five tokens, whose leading token is a valid calendar date and whose three
trailing tokens fail numeric conversion, and which does not contain the
block delimiter `ISIN:`, is dropped with a diagnostic and raises nothing:
the scan continues on the remaining lines from the same transaction list,
so every other transaction is still extracted in document order. -/
theorem c5_amended_malformed_line_skipped (folio amc : Option String)
    (sname line : String) (rest : List String) (txns : List Transaction)
    (diags : List String) (dt : PyDate)
    (h1 : containsSub (pyStrip line) "ISIN:" = false)
    (h2 : matchesDateAnchor (pyStrip line) = true)
    (h3 : 5 ≤ (pySplit (pyStrip line)).length)
    (h4 : pyStrptimeDMY ((pySplit (pyStrip line)).headD "") = some dt)
    (h5 : trailingTriple (pySplit (pyStrip line)) = none) :
    txnScan folio amc sname (line :: rest) txns diags =
      txnScan folio amc sname rest txns
        (diags ++ ["Failed to parse transaction: " ++ pyStrip line]) := by
  rw [txnScan]
  simp only [h1, h2, Bool.false_eq_true, if_false, if_true]
  rw [if_pos h3, h4]
  dsimp only
  rw [show txnOfParts folio amc sname dt
        (joinSpaces (((pySplit (pyStrip line)).drop 1).take
          ((pySplit (pyStrip line)).length - 4)))
        (pySplit (pyStrip line)) = none from by
      unfold txnOfParts
      rw [h5]]

/-- C5 witness: the amended theorem at the concrete malformed line
`01-Apr-2024 Purchase abc def ghi` (valid date, non-numeric trailing
tokens). -/
theorem c5_amended_witness :
    txnScan none none "Scheme Three" ["01-Apr-2024 Purchase abc def ghi"] [] [] =
      txnScan none none "Scheme Three" [] []
        ([] ++ ["Failed to parse transaction: " ++
          pyStrip "01-Apr-2024 Purchase abc def ghi"]) :=
  c5_amended_malformed_line_skipped none none "Scheme Three"
    "01-Apr-2024 Purchase abc def ghi" [] [] [] ⟨2024, 4, 1⟩
    (by decide) (by decide) (by decide) (by decide) (by decide)

/-! ### Claim C6 -/

/-- C6: in every successful parse the portfolio summary is recomputed from
the final scheme collection: `total_value` equals the sum of all scheme
values, the mutual-fund breakdown count equals the number of schemes, and
the breakdown total equals the same sum. -/
theorem c6_summary_recomputed (text : String) (d : CASData)
    (h : parseCAS text = .ok d) :
    d.portfolio_summary.total_value =
      (d.schemes.map MutualFundScheme.value).sum ∧
    d.portfolio_summary.mutual_funds.count = (d.schemes.length : ℚ) ∧
    d.portfolio_summary.mutual_funds.total_value =
      (d.schemes.map MutualFundScheme.value).sum := by
  unfold parseCAS at h
  split at h
  · exact absurd h (by simp)
  · split at h
    · exact absurd h (by simp)
    · injection h with h
      rw [← h]
      unfold calculatePortfolioSummary
      dsimp only
      rw [pySum_eq_sum]
      exact ⟨rfl, rfl, rfl⟩

/-- C6 witness: the marker-only document parses to the default result, on
which the summary equations hold. -/
theorem c6_witness :
    parseCAS c6wText = Except.ok c6wData ∧
    (c6wData.portfolio_summary.total_value =
        (c6wData.schemes.map MutualFundScheme.value).sum ∧
      c6wData.portfolio_summary.mutual_funds.count = (c6wData.schemes.length : ℚ) ∧
      c6wData.portfolio_summary.mutual_funds.total_value =
        (c6wData.schemes.map MutualFundScheme.value).sum) :=
  ⟨by decide, c6_summary_recomputed c6wText c6wData (by decide)⟩

/-! ### Claim C7 -/

/-- C7: the transaction line `01-Apr-2024 Purchase - SIP 1,000.00 10.500
95.20` inside `c7text`'s scheme block is classified `PURCHASE_SIP` with
amount 1000, units 10.5 (`mkRat 21 2`), nav 95.2 (`mkRat 476 5`); the last
three tokens are read positionally as amount, units, NAV, and the middle
tokens form the description `"Purchase - SIP"` used for classification. -/
theorem c7_sip_transaction :
    (parseCAS c7text).map CASData.transactions =
      Except.ok [{ folio_number := none, amc := none,
                   scheme_name := "My Scheme", date := ⟨2024, 4, 1⟩,
                   description := "Purchase - SIP", amount := 1000,
                   units := mkRat 21 2, nav := mkRat 476 5,
                   type := "PURCHASE_SIP", dividend_rate := none }] := by
  decide

/-! ### Claim C8 -/

/-- C8 counterexample: parsing `c8text` yields a scheme whose
`gain.percentage` is −50 (value 100 below cost 200) and a transaction whose
amount is −5 (the sign is accepted by the numeric conversion) — refuting
the claim that every numeric field except `gain.absolute` is
non-negative. -/
theorem c8_counterexample :
    (parseCAS c8text).map (fun d =>
        (d.schemes.map MutualFundScheme.gain,
          d.transactions.map Transaction.amount)) =
      Except.ok ([{ absolute := -100, percentage := -50 }], [-5]) := by
  decide

/-- C8 amended: in every successful parse the stored Scheme figures
(units, nav, value, cost) and the summary figures (count and both totals)
are non-negative; both gain fields may be negative (they carry the sign of
value − cost), and Transaction amount / units / nav may be negative when
the source token carries a sign. -/
theorem c8_amended_nonneg_fields (text : String) (d : CASData)
    (h : parseCAS text = .ok d) :
    d.schemes.all schemeNonneg = true ∧
    0 ≤ d.portfolio_summary.total_value ∧
    0 ≤ d.portfolio_summary.mutual_funds.count ∧
    0 ≤ d.portfolio_summary.mutual_funds.total_value := by
  unfold parseCAS at h
  split at h
  · exact absurd h (by simp)
  · split at h
    · exact absurd h (by simp)
    · rename_i r hr
      injection h with h
      rw [← h]
      dsimp only
      have hall := extractMutualFunds_schemes_nonneg hr
      have hsum : 0 ≤ (r.schemes.map MutualFundScheme.value).sum := by
        apply List.sum_nonneg
        intro x hx
        rcases List.mem_map.mp hx with ⟨s, hs, hv⟩
        have hp := List.all_eq_true.mp hall s hs
        simp only [schemeNonneg, Bool.and_eq_true, decide_eq_true_eq] at hp
        rw [← hv]
        exact hp.1.2
      refine ⟨hall, ?_, ?_, ?_⟩
      · unfold calculatePortfolioSummary
        dsimp only
        rw [pySum_eq_sum]
        exact hsum
      · unfold calculatePortfolioSummary
        dsimp only
        exact Nat.cast_nonneg _
      · unfold calculatePortfolioSummary
        dsimp only
        rw [pySum_eq_sum]
        exact hsum

/-- C8 witness: the amended theorem at the one-scheme document `c8wText`. -/
theorem c8_amended_witness :
    parseCAS c8wText = Except.ok c8wData ∧
    (c8wData.schemes.all schemeNonneg = true ∧
      0 ≤ c8wData.portfolio_summary.total_value ∧
      0 ≤ c8wData.portfolio_summary.mutual_funds.count ∧
      0 ≤ c8wData.portfolio_summary.mutual_funds.total_value) :=
  ⟨by decide, c8_amended_nonneg_fields c8wText c8wData (by decide)⟩

/-! ### Claim C9 -/

/-- C9: in `c9text` the line `01-Zzz-2024 Purchase 1.00 2.00 3.00` matches
the date regex (three letters), but `Zzz` is not a month abbreviation, so
the date conversion raises outside the transaction-level `try` and the
whole extraction aborts — no partial result is produced. -/
theorem c9_invalid_month_aborts :
    parseCAS c9text = Except.error (CASError.internalError
      "time data 01-Zzz-2024 does not match format %d-%b-%Y") := by
  decide

/-! ### Claim C10 -/

/-- C10 counterexample: in `c10text` the line `01-Apr-2024 x ISIN:` matches
the date anchor and splits into fewer than five tokens, but because it also
contains `ISIN:` the block's transaction scan stops at it — the valid
transaction line after it is never recorded (and no diagnostic is
emitted), refuting "scanning continues with the next line". -/
theorem c10_counterexample :
    matchesDateAnchor (pyStrip (lineGet (pyLines c10text) 3)) = true ∧
    (pySplit (pyStrip (lineGet (pyLines c10text) 3))).length < 5 ∧
    matchesDateAnchor (pyStrip (lineGet (pyLines c10text) 4)) = true ∧
    (parseCAS c10text).map (fun d => (d.transactions.length, d.diagnostics)) =
      Except.ok (0, []) := by
  refine ⟨by decide, by decide, by decide, by decide⟩

/-- C10 amended: a line matching the date anchor that splits into fewer
than five whitespace tokens and does not contain the block delimiter
`ISIN:` is silently ignored — no Transaction is recorded, no diagnostic is
emitted — and the block scan continues with the next line unchanged. -/
theorem c10_amended_short_line_ignored (folio amc : Option String)
    (sname line : String) (rest : List String) (txns : List Transaction)
    (diags : List String)
    (h1 : containsSub (pyStrip line) "ISIN:" = false)
    (h2 : matchesDateAnchor (pyStrip line) = true)
    (h3 : (pySplit (pyStrip line)).length < 5) :
    txnScan folio amc sname (line :: rest) txns diags =
      txnScan folio amc sname rest txns diags := by
  rw [txnScan]
  simp only [h1, h2, Bool.false_eq_true, if_false, if_true]
  rw [if_neg (by omega)]

/-- C10 witness: the amended theorem at the concrete three-token line
`01-Apr-2024 x y`. -/
theorem c10_amended_witness :
    txnScan none none "Scheme Six" ["01-Apr-2024 x y"] [] [] =
      txnScan none none "Scheme Six" [] [] [] :=
  c10_amended_short_line_ignored none none "Scheme Six" "01-Apr-2024 x y"
    [] [] [] (by decide) (by decide) (by decide)

end CAS
